import Mathlib

/-!
Shallow embedding of `src/src/main.rs`: a minimal HTTP/1.1 CRUD service that
frames requests by hand (initial chunk, `Content-Length`, exact body read),
routes on the first request line by ordered checks of its beginning, and
dispatches to five CRUD handlers over a relational store.

Request text is modelled as a list of characters (`Str`); indices and lengths
count characters, which coincides with Rust's byte indices on ASCII input.
The relational store and the JSON codec are the external collaborators of the
design; they are modelled from the spec (see the doc comments on `dbInsert`,
`decodeUser`, `encodeUser`). Everything else is translated from the source.
-/

abbrev Str := List Char

def lit (s : String) : Str := s.toList

/-- Rust `str::starts_with` on our character-list strings. -/
def startsWithL : Str → Str → Bool
  | _, [] => true
  | [], _ :: _ => false
  | c :: s, p :: ps => c == p && startsWithL s ps

/-- Rust `str::find(pat)`: index of the first occurrence of `pat`, if any. -/
def findSubstr : Str → Str → Option Nat
  | [], pat => if startsWithL [] pat then some 0 else none
  | c :: t, pat =>
    if startsWithL (c :: t) pat then some 0
    else (findSubstr t pat).map (fun j => j + 1)

/-- Rust `str::split_inclusive('\n')`: pieces keep their `'\n'`, no trailing
empty piece. -/
def splitIncl : Str → List Str
  | [] => []
  | c :: t =>
    if c == '\n' then [c] :: splitIncl t
    else
      match splitIncl t with
      | [] => [[c]]
      | h :: r => (c :: h) :: r

/-- The per-line map of Rust `str::lines`: strip one trailing `'\n'`, and then
one trailing `'\r'` only when a `'\n'` had been stripped. -/
def stripNL (l : Str) : Str :=
  match l.reverse with
  | '\n' :: '\r' :: r => r.reverse
  | '\n' :: r => r.reverse
  | _ => l

/-- Rust `str::lines`. -/
def linesOf (s : Str) : List Str := (splitIncl s).map stripNL

/-- Rust `str::split(sep)` for a single-character separator. -/
def splitCh (sep : Char) : Str → List Str
  | [] => [[]]
  | c :: t =>
    if c == sep then [] :: splitCh sep t
    else
      match splitCh sep t with
      | [] => [[c]]
      | h :: r => (c :: h) :: r

/-- ASCII whitespace, standing in for Rust `char::is_whitespace`. -/
def isWs (c : Char) : Bool := c == ' ' || c == '\t' || c == '\n' || c == '\r'

/-- Rust `str::trim`. -/
def trimL (s : Str) : Str := ((s.dropWhile isWs).reverse.dropWhile isWs).reverse

/-- Rust `str::split_whitespace().next().unwrap_or_default()`. -/
def firstToken (s : Str) : Str :=
  (s.dropWhile isWs).takeWhile (fun c => !(isWs c))

def digitsVal (l : Str) : Nat := l.foldl (fun a c => a * 10 + (c.toNat - 48)) 0

def allDigits (l : Str) : Bool := !l.isEmpty && l.all (fun c => c.isDigit)

/-- Rust `"...".parse::<usize>()`: optional leading `'+'`, at least one digit,
value below 2^64. -/
def parse_usize (s : Str) : Option Nat :=
  let t := match s with
    | '+' :: r => r
    | _ => s
  if allDigits t then
    let v := digitsVal t
    if v < 2 ^ 64 then some v else none
  else none

/-- Rust `"...".parse::<i32>()`: optional sign, at least one digit, value in
the `i32` range. -/
def parse_i32 (s : Str) : Option Int :=
  match s with
  | '-' :: r =>
    if allDigits r then
      let v := digitsVal r
      if v ≤ 2 ^ 31 then some (-(v : Int)) else none
    else none
  | '+' :: r =>
    if allDigits r then
      let v := digitsVal r
      if v < 2 ^ 31 then some ((v : Int)) else none
    else none
  | _ =>
    if allDigits s then
      let v := digitsVal s
      if v < 2 ^ 31 then some ((v : Int)) else none
    else none

def crlf2 : Str := lit "\r\n\r\n"

/-- The data model of `main.rs`: `struct User` with an optional store-assigned
id. -/
structure User where
  id : Option Int
  name : Str
  email : Str
deriving DecidableEq

/-- One step of Rust `str::split("\r\n\r\n")`: pieces between the
left-to-right, non-overlapping matches of the separator. Fuel-recursive; a
fuel of `s.length` always suffices because each found match consumes at least
four characters. -/
def splitSubF : Nat → Str → List Str
  | 0, s => [s]
  | f + 1, s =>
    match findSubstr s crlf2 with
    | none => [s]
    | some i => s.take i :: splitSubF f (s.drop (i + 4))

/-- Rust `request.split("\r\n\r\n")` as a list of pieces. -/
def splitSub (s : Str) : List Str := splitSubF s.length s

/-- Rust `request.split("\r\n\r\n").last().unwrap_or_default()` (line 117). -/
def rawBody (request : Str) : Str := ((splitSub request).getLast?).getD []

/-- Modelled from the spec: the JSON collaborator
`decode(bytes) -> User | ParseError`. A minimal executable decoder for
payloads shaped exactly like `\x7b"name":"...","email":"..."\x7d` with no
escapes inside the two string values; anything else is a parse error. -/
def dropLit : Str → Str → Option Str
  | [], s => some s
  | _ :: _, [] => none
  | p :: ps, c :: cs => if c == p then dropLit ps cs else none

/-- Reads characters up to an unescaped closing quote. Part of the modelled
JSON decoder. -/
def readStrLit : Str → Option (Str × Str)
  | [] => none
  | c :: cs =>
    if c == '"' then some ([], cs)
    else (readStrLit cs).map (fun pr => (c :: pr.1, pr.2))

/-- Modelled from the spec: `serde_json::from_str::<User>` for the valid
`name`/`email` payloads the service accepts. -/
def decodeUser (s : Str) : Option User :=
  (dropLit (lit "\x7b\"name\":\"") s).bind fun s1 =>
  (readStrLit s1).bind fun pr1 =>
  (dropLit (lit ",\"email\":\"") pr1.2).bind fun s3 =>
  (readStrLit s3).bind fun pr2 =>
  if pr2.2 == lit "\x7d" then some ⟨none, pr1.1, pr2.1⟩ else none

/-- `get_user_request_body` (lines 116-122): take the text after the last
non-overlapping `"\r\n\r\n"` separator and decode it as a `User`. -/
def get_user_request_body (request : Str) : Option User :=
  decodeUser (rawBody request)

/-- `get_id` (lines 125-127): `request.split('/').nth(2)`, then the first
whitespace-separated token of that piece. -/
def get_id (request : Str) : Str :=
  firstToken ((((splitCh '/' request).drop 2).head?).getD [])

def natToStr (n : Nat) : Str := Nat.toDigits 10 n

def intToStr (i : Int) : Str :=
  if i < 0 then '-' :: natToStr i.natAbs else natToStr i.natAbs

/-- Modelled from the spec: `serde_json::to_string` on a `User`. -/
def encodeUser (u : User) : Str :=
  lit "\x7b\"id\":" ++
    (match u.id with
      | some n => intToStr n
      | none => lit "null") ++
    lit ",\"name\":\"" ++ u.name ++ lit "\",\"email\":\"" ++ u.email ++ lit "\"\x7d"

def joinComma : List Str → Str
  | [] => []
  | [s] => s
  | s :: r => s ++ ',' :: joinComma r

/-- Modelled from the spec: `serde_json::to_string` on a `Vec<User>`. -/
def encodeUsers (us : List User) : Str :=
  '[' :: (joinComma (us.map encodeUser) ++ [']'])

/-- Modelled from the spec: the relational store's visible state — the rows of
the `users` table and the next `SERIAL` id it will assign. -/
structure DBState where
  rows : List (Int × Str × Str)
  nextId : Int
deriving DecidableEq

/-- Whether the store round-trips of one request succeed: `connectOk` is
`Client::connect`, `stmtOk` is the single statement the handler runs. -/
structure DBEnv where
  connectOk : Bool
  stmtOk : Bool
deriving DecidableEq

/-- Modelled from the spec: `INSERT INTO users (name, email) VALUES ($1, $2)`
with a store-assigned `SERIAL` id. -/
def dbInsert (st : DBState) (name email : Str) : DBState :=
  { rows := st.rows ++ [(st.nextId, name, email)], nextId := st.nextId + 1 }

/-- Modelled from the spec: `SELECT id, name, email FROM users WHERE id = $1`. -/
def dbFind (st : DBState) (id : Int) : Option (Int × Str × Str) :=
  st.rows.find? (fun r => r.1 == id)

/-- Modelled from the spec: `UPDATE users SET name = $1, email = $2 WHERE id = $3`,
returning the new state and the number of rows affected. -/
def dbUpdate (st : DBState) (id : Int) (name email : Str) : DBState × Nat :=
  ({ st with rows := st.rows.map (fun r => if r.1 == id then (r.1, name, email) else r) },
   (st.rows.filter (fun r => r.1 == id)).length)

/-- Modelled from the spec: `DELETE FROM users WHERE id = $1`, returning the
new state and the number of rows affected. -/
def dbDelete (st : DBState) (id : Int) : DBState × Nat :=
  ({ st with rows := st.rows.filter (fun r => !(r.1 == id)) },
   (st.rows.filter (fun r => r.1 == id)).length)

def OK_RESPONSE : Str :=
  lit "HTTP/1.1 200 OK\r\nContent-Type: application/json\r\n\r\n"

def NOT_FOUND : Str := lit "HTTP/1.1 404 NOT FOUND\r\n\r\n"

def INTERNAL_ERROR : Str := lit "HTTP/1.1 500 INTERNAL ERROR\r\n\r\n"

def BAD_REQUEST : Str :=
  lit "HTTP/1.1 400 BAD REQUEST\r\nContent-Type: text/plain\r\n\r\n"

/-- `handle_post_request` (lines 145-170). The Rust 400 body appends the serde
error text to "Invalid user data: "; the error text itself is internal to the
collaborator and elided here. -/
def handle_post_request (env : DBEnv) (st : DBState) (request : Str) :
    (Str × Str) × DBState :=
  match get_user_request_body request with
  | none => ((BAD_REQUEST, lit "Invalid user data"), st)
  | some user =>
    if env.connectOk then
      if env.stmtOk then
        ((OK_RESPONSE, lit "User created"), dbInsert st user.name user.email)
      else ((INTERNAL_ERROR, lit "DB error"), st)
    else ((INTERNAL_ERROR, lit "Internal error"), st)

/-- `handle_get_request` (lines 173-195). The `Err(_)` arm of `query_one`
covers both an absent row and a failed query, so `stmtOk = false` also lands
on the 404 branch, exactly as in the source. -/
def handle_get_request (env : DBEnv) (st : DBState) (request : Str) :
    (Str × Str) × DBState :=
  match parse_i32 (get_id request) with
  | none => ((NOT_FOUND, lit "Invalid ID or ID missing"), st)
  | some id =>
    if env.connectOk then
      if env.stmtOk then
        match dbFind st id with
        | some row => ((OK_RESPONSE, encodeUser ⟨some row.1, row.2.1, row.2.2⟩), st)
        | none => ((NOT_FOUND, lit "User not found"), st)
      else ((NOT_FOUND, lit "User not found"), st)
    else ((INTERNAL_ERROR, lit "Internal error"), st)

/-- `handle_get_all_request` (lines 198-219). -/
def handle_get_all_request (env : DBEnv) (st : DBState) (_request : Str) :
    (Str × Str) × DBState :=
  if env.connectOk then
    if env.stmtOk then
      ((OK_RESPONSE, encodeUsers (st.rows.map (fun r => ⟨some r.1, r.2.1, r.2.2⟩))), st)
    else ((INTERNAL_ERROR, lit "Error querying users"), st)
  else ((INTERNAL_ERROR, lit "Internal error"), st)

/-- `handle_put_request` (lines 222-248). A failed UPDATE is
`client.execute(..).unwrap_or(0)` in the source: it is indistinguishable from
zero rows affected, modelled by `(st, 0)` when `stmtOk` is false. -/
def handle_put_request (env : DBEnv) (st : DBState) (request : Str) :
    (Str × Str) × DBState :=
  match parse_i32 (get_id request) with
  | none => ((NOT_FOUND, lit "Invalid ID or ID missing"), st)
  | some id =>
    match get_user_request_body request with
    | none => ((BAD_REQUEST, lit "Invalid user data"), st)
    | some user =>
      if env.connectOk then
        let pr := if env.stmtOk then dbUpdate st id user.name user.email else (st, 0)
        if pr.2 = 0 then ((NOT_FOUND, lit "User not found for update"), pr.1)
        else ((OK_RESPONSE, lit "User updated"), pr.1)
      else ((INTERNAL_ERROR, lit "Internal error"), st)

/-- `handle_delete_request` (lines 251-268). As with update, a failed DELETE
statement is `unwrap_or(0)`. -/
def handle_delete_request (env : DBEnv) (st : DBState) (request : Str) :
    (Str × Str) × DBState :=
  match parse_i32 (get_id request) with
  | none => ((NOT_FOUND, lit "Invalid ID or ID missing"), st)
  | some id =>
    if env.connectOk then
      let pr := if env.stmtOk then dbDelete st id else (st, 0)
      if pr.2 = 0 then ((NOT_FOUND, lit "User not found"), pr.1)
      else ((OK_RESPONSE, lit "User deleted"), pr.1)
    else ((INTERNAL_ERROR, lit "Internal error"), st)

inductive Handler where
  | create
  | readOne
  | readAll
  | update
  | delete
  | notFound
deriving DecidableEq

/-- The routing match of `handle_client` (lines 101-108): ordered checks of
the beginning of the first line. -/
def route (first : Str) : Handler :=
  if startsWithL first (lit "POST /users") then .create
  else if startsWithL first (lit "GET /users/") then .readOne
  else if startsWithL first (lit "GET /users") then .readAll
  else if startsWithL first (lit "PUT /users/") then .update
  else if startsWithL first (lit "DELETE /users/") then .delete
  else .notFound

/-- The handler invocation arms of the routing match (lines 101-108); every
handler receives the full request. -/
def dispatch (env : DBEnv) (st : DBState) (first full : Str) :
    (Str × Str) × DBState :=
  match route first with
  | .create => handle_post_request env st full
  | .readOne => handle_get_request env st full
  | .readAll => handle_get_all_request env st full
  | .update => handle_put_request env st full
  | .delete => handle_delete_request env st full
  | .notFound => ((NOT_FOUND, lit "404 not found"), st)

/-- Line 68: `find("\r\n\r\n").map(|i| i + 4).unwrap_or(size)`. -/
def headerEnd (part : Str) (size : Nat) : Nat :=
  ((findSubstr part crlf2).map (fun i => i + 4)).getD size

/-- Lines 76-81: scan the header block for the first `Content-Length:` line,
take the text after the first `':'`, trim and parse it, defaulting to 0. -/
def contentLengthOf (headers : Str) : Nat :=
  ((((linesOf headers).find? (fun line => startsWithL line (lit "Content-Length:"))).bind
      (fun line => (((splitCh ':' line).drop 1).head?))).bind
    (fun v => parse_usize (trimL v))).getD 0

/-- Rust `usize::saturating_sub`. -/
def saturatingSub (a b : Nat) : Nat := a - b

/-- Line 84: `size.saturating_sub(header_end_index)`. -/
def bodyAlreadyRead (part : Str) (size : Nat) : Nat :=
  saturatingSub size (headerEnd part size)

/-- Line 85: `content_length.saturating_sub(body_already_read_len)`. -/
def bytesToRead (part : Str) (size : Nat) : Nat :=
  saturatingSub (contentLengthOf (part.take (headerEnd part size)))
    (bodyAlreadyRead part size)

/-- Lines 73 and 87-95: the full request is the initial part, extended by
exactly `bytes_to_read` further characters when `read_exact` succeeds, i.e.
when the stream still holds that many; on a short stream the body is simply
not appended. -/
def framedRequest (part : Str) (size : Nat) (tail : Str) : Str :=
  let toRead := bytesToRead part size
  if 0 < toRead then
    if toRead ≤ tail.length then part ++ tail.take toRead else part
  else part

/-- The initial chunk as delivered by the first `stream.read`: either valid
UTF-8 text, or `size` undecodable bytes which `from_utf8(..).unwrap_or_default()`
turns into the empty string while `size` keeps the raw count. -/
inductive Chunk where
  | valid (s : Str)
  | invalid (size : Nat)
deriving DecidableEq

def chunkText : Chunk → Str
  | .valid s => s
  | .invalid _ => []

def chunkSize : Chunk → Nat
  | .valid s => s.length
  | .invalid n => n

/-- The outcome of the first `stream.read` (lines 57-63). -/
inductive InitialRead where
  | failed
  | ok (chunk : Chunk)
deriving DecidableEq

/-- What one connection observably does: no response (initial read failed and
the handler returned early), a Rust panic, or a written `(status, content)`
pair that line 110 concatenates onto the wire. -/
inductive HCResult where
  | noResponse
  | panicked
  | response (p : Str × Str)
deriving DecidableEq

/-- Line 98: the first line of the full request, defaulting to the
`NOT_FOUND` constant for a line-less request. -/
def firstLineOf (full : Str) : Str := ((linesOf full).head?).getD NOT_FOUND

/-- `handle_client` (lines 52-111). `str::split_at(header_end_index)` at line
71 panics when the index exceeds the string's length, which happens exactly
when an undecodable chunk left `initial_request_part` empty while `size`
stayed positive; the guard reproduces that. -/
def handle_client (env : DBEnv) (st : DBState) (r : InitialRead) (tail : Str) :
    HCResult × DBState :=
  match r with
  | .failed => (.noResponse, st)
  | .ok chunk =>
    let part := chunkText chunk
    let size := chunkSize chunk
    if headerEnd part size ≤ part.length then
      let full := framedRequest part size tail
      let res := dispatch env st (firstLineOf full) full
      (.response res.1, res.2)
    else (.panicked, st)

/-- Spec-side notion for claim C10, for comparison with `rawBody`: whether
`"\r\n\r\n"` occurs at index `i`. -/
def occursAt (s : Str) (i : Nat) : Bool := startsWithL (s.drop i) crlf2

/-- Spec-side notion for claim C10, following the claim's wording: the suffix
after the last index at which `"\r\n\r\n"` occurs, the whole string when it
never occurs. -/
def afterLastOccurrence (s : Str) : Str :=
  match ((List.range (s.length + 1)).filter (fun i => occursAt s i)).getLast? with
  | none => s
  | some i => s.drop (i + 4)

/-- The four status lines of the spec's response-status table. -/
def goodStatus (s : Str) : Prop :=
  s = OK_RESPONSE ∨ s = BAD_REQUEST ∨ s = NOT_FOUND ∨ s = INTERNAL_ERROR

/-! ### Helper lemmas about the string machinery -/

theorem startsWithL_nil (s : Str) : startsWithL s [] = true := by
  cases s <;> rfl

theorem startsWithL_length {l pat : Str} (h : startsWithL l pat = true) :
    pat.length ≤ l.length := by
  induction pat generalizing l with
  | nil => simp
  | cons p ps ih =>
    cases l with
    | nil => simp [startsWithL] at h
    | cons c t =>
      simp only [startsWithL, Bool.and_eq_true] at h
      have := ih h.2
      simp only [List.length_cons]
      omega

theorem startsWithL_iff {l pat : Str} :
    startsWithL l pat = true ↔ ∃ t, l = pat ++ t := by
  induction pat generalizing l with
  | nil =>
    simp only [startsWithL_nil, List.nil_append, true_iff]
    exact ⟨l, rfl⟩
  | cons p ps ih =>
    cases l with
    | nil => simp [startsWithL]
    | cons c t =>
      simp only [startsWithL, Bool.and_eq_true, beq_iff_eq, ih, List.cons_append,
        List.cons.injEq]
      constructor
      · rintro ⟨hc, u, hu⟩; exact ⟨u, hc, hu⟩
      · rintro ⟨u, hc, hu⟩; exact ⟨hc, u, hu⟩

theorem startsWithL_append_of_le (pat a : Str) (t : Str)
    (h : pat.length ≤ a.length) :
    startsWithL (a ++ t) pat = startsWithL a pat := by
  induction pat generalizing a with
  | nil => rw [startsWithL_nil, startsWithL_nil]
  | cons p ps ih =>
    cases a with
    | nil => simp at h
    | cons c s =>
      simp only [List.cons_append, startsWithL, List.append_eq]
      rw [ih s (by simpa using h)]

theorem startsWithL_head {l pat : Str} (h : startsWithL l pat = true)
    (hp : pat ≠ []) : l.head? = pat.head? := by
  cases pat with
  | nil => exact absurd rfl hp
  | cons p ps =>
    cases l with
    | nil => simp [startsWithL] at h
    | cons c t =>
      simp only [startsWithL, Bool.and_eq_true, beq_iff_eq] at h
      simp [h.1]

theorem head?_append_left {a : Str} (t : Str) (h : a ≠ []) :
    (a ++ t).head? = a.head? := by
  cases a with
  | nil => exact absurd rfl h
  | cons c s => rfl

theorem findSubstr_bound {s pat : Str} {i : Nat}
    (h : findSubstr s pat = some i) : i + pat.length ≤ s.length := by
  induction s generalizing i with
  | nil =>
    unfold findSubstr at h
    split at h
    · next hs =>
      cases h
      simpa using startsWithL_length hs
    · simp at h
  | cons c t ih =>
    unfold findSubstr at h
    split at h
    · next hs =>
      cases h
      simpa using startsWithL_length hs
    · next hs =>
      rw [Option.map_eq_some'] at h
      obtain ⟨j, hj, rfl⟩ := h
      have := ih hj
      simp only [List.length_cons]
      omega

theorem headerEnd_le (s : Str) : headerEnd s s.length ≤ s.length := by
  unfold headerEnd
  cases h : findSubstr s crlf2 with
  | none => simp
  | some i =>
    have hb := findSubstr_bound h
    have hc : crlf2.length = 4 := by decide
    rw [hc] at hb
    simpa using hb

theorem splitSubF_ne_nil (f : Nat) (s : Str) : splitSubF f s ≠ [] := by
  cases f with
  | zero => simp [splitSubF]
  | succ g =>
    unfold splitSubF
    split <;> simp

theorem getLast?_splitSubF_succ (f : Nat) (s : Str) {i : Nat}
    (h : findSubstr s crlf2 = some i) :
    (splitSubF (f + 1) s).getLast? = (splitSubF f (s.drop (i + 4))).getLast? := by
  have he : splitSubF (f + 1) s = s.take i :: splitSubF f (s.drop (i + 4)) := by
    simp only [splitSubF, h]
  rw [he]
  cases hr : splitSubF f (s.drop (i + 4)) with
  | nil => exact absurd hr (splitSubF_ne_nil f _)
  | cons a r => exact List.getLast?_cons_cons

theorem splitSubF_last_noSep (f : Nat) :
    ∀ s : Str, s.length ≤ f →
      findSubstr (((splitSubF f s).getLast?).getD []) crlf2 = none := by
  induction f with
  | zero =>
    intro s hs
    have he : s = [] := List.length_eq_zero.mp (Nat.le_zero.mp hs)
    subst he
    decide
  | succ g ih =>
    intro s hs
    cases h : findSubstr s crlf2 with
    | none =>
      have he : splitSubF (g + 1) s = [s] := by unfold splitSubF; rw [h]
      rw [he]
      simpa using h
    | some i =>
      rw [getLast?_splitSubF_succ g s h]
      apply ih
      have hb := findSubstr_bound h
      have hc : crlf2.length = 4 := by decide
      rw [hc] at hb
      simp only [List.length_drop]
      omega

theorem splitSubF_last_suffix (f : Nat) :
    ∀ s : Str, ∃ p : Str, s = p ++ ((splitSubF f s).getLast?).getD [] := by
  induction f with
  | zero =>
    intro s
    exact ⟨[], by simp [splitSubF]⟩
  | succ g ih =>
    intro s
    cases h : findSubstr s crlf2 with
    | none =>
      have he : splitSubF (g + 1) s = [s] := by unfold splitSubF; rw [h]
      exact ⟨[], by simp [he]⟩
    | some i =>
      obtain ⟨p, hp⟩ := ih (s.drop (i + 4))
      refine ⟨s.take (i + 4) ++ p, ?_⟩
      rw [getLast?_splitSubF_succ g s h, List.append_assoc, ← hp,
        List.take_append_drop]

theorem rawBody_of_noSep (req : Str) (h : findSubstr req crlf2 = none) :
    rawBody req = req := by
  unfold rawBody splitSub
  cases hl : req.length with
  | zero =>
    have he : req = [] := List.length_eq_zero.mp hl
    subst he
    rfl
  | succ n =>
    have he : splitSubF (n + 1) req = [req] := by unfold splitSubF; rw [h]
    rw [he]
    rfl

theorem dropLit_none_of_head (p : Char) (ps : Str) (s : Str)
    (h : s.head? ≠ some p) : dropLit (p :: ps) s = none := by
  cases s with
  | nil => rfl
  | cons c t =>
    have hc : ¬ c = p := fun he => h (by simp [he])
    simp [dropLit, hc]

theorem find_on_append {α : Type} (p : α → Bool) (l₁ l₂ : List α)
    (h : l₁.find? p = none) : (l₁ ++ l₂).find? p = l₂.find? p := by
  induction l₁ with
  | nil => rfl
  | cons a t ih =>
    cases hpa : p a with
    | true =>
      rw [List.find?_cons_of_pos _ hpa] at h
      exact absurd h (by simp)
    | false =>
      rw [List.find?_cons_of_neg _ (by simp [hpa])] at h
      rw [List.cons_append, List.find?_cons_of_neg _ (by simp [hpa]), ih h]

theorem filter_both_ne (id : Int) (l : List (Int × Str × Str)) :
    (l.filter (fun r => !(r.1 == id))).filter (fun r => r.1 == id) = [] := by
  induction l with
  | nil => rfl
  | cons a t ih =>
    by_cases h : a.1 = id <;> simp [List.filter_cons, h, ih]

theorem filter_ne_idem (id : Int) (l : List (Int × Str × Str)) :
    (l.filter (fun r => !(r.1 == id))).filter (fun r => !(r.1 == id))
      = l.filter (fun r => !(r.1 == id)) := by
  induction l with
  | nil => rfl
  | cons a t ih =>
    by_cases h : a.1 = id <;> simp [List.filter_cons, h, ih]

/-! ### Claim theorems -/

/-- C1 (counterexample): a DELETE whose store statement fails (`stmtOk =
false` while the connection succeeded) answers 404 NOT FOUND, not 500
INTERNAL ERROR, even though a matching row exists — `unwrap_or(0)` folds the
failure into "zero rows affected". -/
theorem c1_counterexample :
    (handle_delete_request ⟨true, false⟩ ⟨[(1, lit "a", lit "b")], 2⟩
        (lit "DELETE /users/1 HTTP/1.1")).1.1 = NOT_FOUND ∧
    NOT_FOUND ≠ INTERNAL_ERROR := by
  constructor
  · decide
  · decide

/-- C1 (amended): a failed store connection yields 500 in every handler, and
a failed INSERT (Create) or failed SELECT (ReadAll) yields 500; but a failed
query in ReadOne yields 404, and a failed UPDATE or DELETE statement is
treated as zero rows affected and yields 404. -/
theorem c1_store_failure_statuses (b : Bool) (st : DBState) (req : Str)
    (u : User) (id : Int)
    (hdec : get_user_request_body req = some u)
    (hid : parse_i32 (get_id req) = some id) :
    (handle_post_request ⟨false, b⟩ st req).1.1 = INTERNAL_ERROR ∧
    (handle_post_request ⟨true, false⟩ st req).1.1 = INTERNAL_ERROR ∧
    (handle_get_all_request ⟨false, b⟩ st req).1.1 = INTERNAL_ERROR ∧
    (handle_get_all_request ⟨true, false⟩ st req).1.1 = INTERNAL_ERROR ∧
    (handle_get_request ⟨false, b⟩ st req).1.1 = INTERNAL_ERROR ∧
    (handle_put_request ⟨false, b⟩ st req).1.1 = INTERNAL_ERROR ∧
    (handle_delete_request ⟨false, b⟩ st req).1.1 = INTERNAL_ERROR ∧
    (handle_get_request ⟨true, false⟩ st req).1.1 = NOT_FOUND ∧
    (handle_put_request ⟨true, false⟩ st req).1.1 = NOT_FOUND ∧
    (handle_delete_request ⟨true, false⟩ st req).1.1 = NOT_FOUND := by
  refine ⟨?_, ?_, ?_, ?_, ?_, ?_, ?_, ?_, ?_, ?_⟩ <;>
    simp [handle_post_request, handle_get_request, handle_get_all_request,
      handle_put_request, handle_delete_request, hdec, hid]

def c1req : Str := lit "PUT /users/1 HTTP/1.1\r\n\r\n\x7b\"name\":\"a\",\"email\":\"b\"\x7d"

theorem c1_witness :
    get_user_request_body c1req = some ⟨none, lit "a", lit "b"⟩ ∧
    parse_i32 (get_id c1req) = some 1 ∧
    (handle_put_request ⟨true, false⟩ ⟨[], 1⟩ c1req).1.1 = NOT_FOUND :=
  ⟨by decide, by decide,
    (c1_store_failure_statuses true ⟨[], 1⟩ c1req ⟨none, lit "a", lit "b"⟩ 1
        (by decide) (by decide)).2.2.2.2.2.2.2.2.2⟩

/-- C3: router precedence on the first request line — a line beginning with
"GET /users/" routes to ReadOne (never ReadAll), and a line beginning with
"GET /users" but not "GET /users/" routes to ReadAll (never ReadOne). -/
theorem c3_router_precedence (l : Str) :
    (startsWithL l (lit "GET /users/") = true → route l = Handler.readOne) ∧
    (startsWithL l (lit "GET /users") = true →
      startsWithL l (lit "GET /users/") = false → route l = Handler.readAll) := by
  constructor
  · intro h1
    obtain ⟨t, rfl⟩ := startsWithL_iff.mp h1
    have hp : startsWithL (lit "GET /users/" ++ t) (lit "POST /users") = false := by
      rw [startsWithL_append_of_le (lit "POST /users") (lit "GET /users/") t
        (by decide)]
      decide
    have hg : startsWithL (lit "GET /users/" ++ t) (lit "GET /users/") = true := by
      rw [startsWithL_append_of_le (lit "GET /users/") (lit "GET /users/") t
        (by decide)]
      decide
    simp [route, hp, hg]
  · intro h1 h2
    obtain ⟨t, rfl⟩ := startsWithL_iff.mp h1
    have hpost : startsWithL (lit "GET /users" ++ t) (lit "POST /users") = false := by
      cases hb : startsWithL (lit "GET /users" ++ t) (lit "POST /users") with
      | false => rfl
      | true =>
        have e1 := startsWithL_head hb (by decide)
        rw [head?_append_left t (by decide)] at e1
        exact absurd e1 (by decide)
    have hg : startsWithL (lit "GET /users" ++ t) (lit "GET /users") = true := by
      rw [startsWithL_append_of_le (lit "GET /users") (lit "GET /users") t
        (by decide)]
      decide
    simp [route, hpost, h2, hg]

theorem c3_witness :
    (startsWithL (lit "GET /users/42 HTTP/1.1") (lit "GET /users/") = true ∧
      route (lit "GET /users/42 HTTP/1.1") = Handler.readOne) ∧
    (startsWithL (lit "GET /users HTTP/1.1") (lit "GET /users") = true ∧
      startsWithL (lit "GET /users HTTP/1.1") (lit "GET /users/") = false ∧
      route (lit "GET /users HTTP/1.1") = Handler.readAll) :=
  ⟨⟨by decide, (c3_router_precedence (lit "GET /users/42 HTTP/1.1")).1 (by decide)⟩,
   ⟨by decide, by decide,
     (c3_router_precedence (lit "GET /users HTTP/1.1")).2 (by decide) (by decide)⟩⟩

/-- C6: when the path segment after "/users/" is absent or not an integer,
ReadOne, Update and Delete all answer 404 NOT FOUND (which differs from 400
BAD REQUEST), leave the store state untouched, and do so for every store
environment — the store is never contacted. -/
theorem c6_invalid_id_not_found (env : DBEnv) (st : DBState) (req : Str)
    (h : parse_i32 (get_id req) = none) :
    handle_get_request env st req = ((NOT_FOUND, lit "Invalid ID or ID missing"), st) ∧
    handle_put_request env st req = ((NOT_FOUND, lit "Invalid ID or ID missing"), st) ∧
    handle_delete_request env st req = ((NOT_FOUND, lit "Invalid ID or ID missing"), st) ∧
    NOT_FOUND ≠ BAD_REQUEST := by
  refine ⟨?_, ?_, ?_, by decide⟩ <;>
    simp [handle_get_request, handle_put_request, handle_delete_request, h]

theorem c6_witness :
    parse_i32 (get_id (lit "GET /users/abc HTTP/1.1")) = none ∧
    handle_get_request ⟨true, true⟩ ⟨[], 1⟩ (lit "GET /users/abc HTTP/1.1")
      = ((NOT_FOUND, lit "Invalid ID or ID missing"), ⟨[], 1⟩) :=
  ⟨by decide,
    (c6_invalid_id_not_found ⟨true, true⟩ ⟨[], 1⟩ (lit "GET /users/abc HTTP/1.1")
      (by decide)).1⟩

/-- C4: a successful POST of a payload with a name and an email inserts a row
under the store's next id, answers 200 "User created", and a subsequent GET
of that id answers 200 with the JSON of a `User` whose name and email match
the payload and whose id field is populated with the assigned id. -/
theorem c4_create_then_read (st : DBState) (postReq getReq : Str) (u : User)
    (hdec : get_user_request_body postReq = some u)
    (hfresh : ∀ r ∈ st.rows, r.1 ≠ st.nextId)
    (hget : parse_i32 (get_id getReq) = some st.nextId) :
    handle_post_request ⟨true, true⟩ st postReq =
      ((OK_RESPONSE, lit "User created"), dbInsert st u.name u.email) ∧
    handle_get_request ⟨true, true⟩ (dbInsert st u.name u.email) getReq =
      ((OK_RESPONSE, encodeUser ⟨some st.nextId, u.name, u.email⟩),
        dbInsert st u.name u.email) := by
  constructor
  · simp [handle_post_request, hdec]
  · have hfind : dbFind (dbInsert st u.name u.email) st.nextId
        = some (st.nextId, u.name, u.email) := by
      unfold dbFind dbInsert
      rw [find_on_append _ _ _ (List.find?_eq_none.mpr ?side)]
      · simp [List.find?]
      case side =>
        intro x hx
        simpa using hfresh x hx
    simp [handle_get_request, hget, hfind]

def c4post : Str := lit "POST /users HTTP/1.1\r\n\r\n\x7b\"name\":\"Ann\",\"email\":\"a@x.com\"\x7d"

theorem c4_witness :
    get_user_request_body c4post = some ⟨none, lit "Ann", lit "a@x.com"⟩ ∧
    (∀ r ∈ (⟨[], 1⟩ : DBState).rows, r.1 ≠ (⟨[], 1⟩ : DBState).nextId) ∧
    parse_i32 (get_id (lit "GET /users/1 HTTP/1.1")) = some 1 ∧
    (handle_post_request ⟨true, true⟩ ⟨[], 1⟩ c4post =
        ((OK_RESPONSE, lit "User created"),
          dbInsert ⟨[], 1⟩ (lit "Ann") (lit "a@x.com")) ∧
      handle_get_request ⟨true, true⟩ (dbInsert ⟨[], 1⟩ (lit "Ann") (lit "a@x.com"))
          (lit "GET /users/1 HTTP/1.1") =
        ((OK_RESPONSE, encodeUser ⟨some 1, lit "Ann", lit "a@x.com"⟩),
          dbInsert ⟨[], 1⟩ (lit "Ann") (lit "a@x.com"))) :=
  ⟨by decide, by decide, by decide,
    c4_create_then_read ⟨[], 1⟩ c4post (lit "GET /users/1 HTTP/1.1")
      ⟨none, lit "Ann", lit "a@x.com"⟩ (by decide) (by decide) (by decide)⟩

/-- C8: deleting an id removes every row with that id, so once a DELETE has
succeeded, a second DELETE of the same id finds zero rows to affect, answers
404 "User not found", and leaves the store state unchanged. -/
theorem c8_delete_idempotent (st : DBState) (req : Str) (id : Int)
    (hid : parse_i32 (get_id req) = some id)
    (hok : (handle_delete_request ⟨true, true⟩ st req).1.1 = OK_RESPONSE) :
    (handle_delete_request ⟨true, true⟩
        ((handle_delete_request ⟨true, true⟩ st req).2) req).1
      = (NOT_FOUND, lit "User not found") ∧
    (handle_delete_request ⟨true, true⟩
        ((handle_delete_request ⟨true, true⟩ st req).2) req).2
      = (handle_delete_request ⟨true, true⟩ st req).2 ∧
    (((handle_delete_request ⟨true, true⟩ st req).2).rows.filter
        (fun r => r.1 == id)).length = 0 := by
  have hst : (handle_delete_request ⟨true, true⟩ st req).2
      = { st with rows := st.rows.filter (fun r => !(r.1 == id)) } := by
    by_cases h0 : (st.rows.filter (fun r => r.1 == id)).length = 0
    · simp [handle_delete_request, hid, dbDelete, h0]
    · simp [handle_delete_request, hid, dbDelete, h0]
  by_cases h0 : (st.rows.filter (fun r => r.1 == id)).length = 0
  · exfalso
    have : (handle_delete_request ⟨true, true⟩ st req).1.1 = NOT_FOUND := by
      simp [handle_delete_request, hid, dbDelete, h0]
    rw [hok] at this
    exact absurd this (by decide)
  · rw [hst]
    have hz : (((st.rows.filter (fun r => !(r.1 == id))).filter
        (fun r => r.1 == id))).length = 0 := by
      rw [filter_both_ne]
      rfl
    refine ⟨?_, ?_, by exact hz⟩
    · simp [handle_delete_request, hid, dbDelete, hz]
    · simp [handle_delete_request, hid, dbDelete, hz, filter_ne_idem]

def c8req : Str := lit "DELETE /users/1 HTTP/1.1"

theorem c8_witness :
    parse_i32 (get_id c8req) = some 1 ∧
    (handle_delete_request ⟨true, true⟩ ⟨[(1, lit "a", lit "b")], 2⟩ c8req).1.1
      = OK_RESPONSE ∧
    (handle_delete_request ⟨true, true⟩
        ((handle_delete_request ⟨true, true⟩ ⟨[(1, lit "a", lit "b")], 2⟩ c8req).2)
        c8req).1
      = (NOT_FOUND, lit "User not found") :=
  ⟨by decide, by decide,
    (c8_delete_idempotent ⟨[(1, lit "a", lit "b")], 2⟩ c8req 1
      (by decide) (by decide)).1⟩

/-- C5: the framing arithmetic — Content-Length defaults to 0 when the header
line is missing or its value does not parse; `already_read` is the chunk
length minus the header block length clamped at zero; `remaining` is
Content-Length minus `already_read` clamped at zero; and when `remaining` is
positive and available, the framed request extends the initial part by exactly
`remaining` further characters. -/
theorem c5_framing_arithmetic (hdrs part tail : Str) (size : Nat) :
    ((linesOf hdrs).find? (fun line => startsWithL line (lit "Content-Length:"))
        = none → contentLengthOf hdrs = 0) ∧
    (∀ line,
      (linesOf hdrs).find? (fun line => startsWithL line (lit "Content-Length:"))
          = some line →
      ((((splitCh ':' line).drop 1).head?).bind (fun v => parse_usize (trimL v)))
          = none →
      contentLengthOf hdrs = 0) ∧
    ((bodyAlreadyRead part size : Int)
        = max 0 ((size : Int) - (headerEnd part size : Int))) ∧
    ((bytesToRead part size : Int)
        = max 0 ((contentLengthOf (part.take (headerEnd part size)) : Int)
            - (bodyAlreadyRead part size : Int))) ∧
    (0 < bytesToRead part size → bytesToRead part size ≤ tail.length →
      framedRequest part size tail = part ++ tail.take (bytesToRead part size)) := by
  refine ⟨?_, ?_, ?_, ?_, ?_⟩
  · intro h
    unfold contentLengthOf
    rw [h]
    rfl
  · intro line hfind hparse
    unfold contentLengthOf
    rw [hfind]
    show ((((splitCh ':' line).drop 1).head?).bind
      (fun v => parse_usize (trimL v))).getD 0 = 0
    rw [hparse]
    rfl
  · unfold bodyAlreadyRead saturatingSub
    omega
  · unfold bytesToRead saturatingSub
    omega
  · intro hpos hle
    unfold framedRequest
    rw [if_pos hpos, if_pos hle]

def c5hdrs1 : Str := lit "GET /x HTTP/1.1\r\n\r\n"

def c5hdrs2 : Str := lit "POST /x\r\nContent-Length: abc\r\n\r\n"

def c5part : Str := lit "Content-Length: 9\r\n\r\nab"

theorem c5_witness :
    contentLengthOf c5hdrs1 = 0 ∧
    contentLengthOf c5hdrs2 = 0 ∧
    framedRequest c5part 23 (lit "1234567")
      = c5part ++ (lit "1234567").take (bytesToRead c5part 23) :=
  ⟨(c5_framing_arithmetic c5hdrs1 [] [] 0).1 (by decide),
   (c5_framing_arithmetic c5hdrs2 [] [] 0).2.1 (lit "Content-Length: abc")
     (by decide) (by decide),
   (c5_framing_arithmetic [] c5part (lit "1234567") 23).2.2.2.2
     (by decide) (by decide)⟩

def c2req : Str := lit "POST /users HTTP/1.1\r\nContent-Length: 5\r\n\r\n"

/-- C2 (counterexample): headers declare Content-Length 5 but the stream holds
no further bytes; the connection does not fail — `read_exact`'s error is
swallowed, the request is processed without its body and a 400 response is
still written. -/
theorem c2_counterexample :
    0 < bytesToRead c2req c2req.length ∧
    (handle_client ⟨true, true⟩ ⟨[], 1⟩ (.ok (.valid c2req)) []).1
      = HCResult.response (BAD_REQUEST, lit "Invalid user data") ∧
    HCResult.response (BAD_REQUEST, lit "Invalid user data") ≠ HCResult.noResponse := by
  refine ⟨by decide, by decide, by decide⟩

/-- C2 (amended): when the stream closes before the remaining body bytes
arrive, the body read is skipped rather than failing the connection — the
request is processed exactly as if no further bytes existed, and a response is
still produced. -/
theorem c2_short_read_still_responds (env : DBEnv) (st : DBState)
    (s tail : Str) (h : tail.length < bytesToRead s s.length) :
    handle_client env st (.ok (.valid s)) tail
      = handle_client env st (.ok (.valid s)) [] ∧
    ∃ p, (handle_client env st (.ok (.valid s)) tail).1 = HCResult.response p := by
  have h0 : 0 < bytesToRead s s.length := Nat.lt_of_le_of_lt (Nat.zero_le _) h
  have hf1 : framedRequest s s.length tail = s := by
    unfold framedRequest
    rw [if_pos h0, if_neg (Nat.not_le.mpr h)]
  have hf2 : framedRequest s s.length [] = s := by
    unfold framedRequest
    rw [if_pos h0, if_neg (by simp; omega)]
  have hg : headerEnd (chunkText (Chunk.valid s)) (chunkSize (Chunk.valid s))
      ≤ (chunkText (Chunk.valid s)).length := by
    simpa [chunkText, chunkSize] using headerEnd_le s
  constructor
  · simp only [handle_client]
    rw [if_pos hg, if_pos hg]
    simp only [chunkText, chunkSize] at hf1 hf2 ⊢
    rw [hf1, hf2]
  · simp only [handle_client]
    rw [if_pos hg]
    exact ⟨_, rfl⟩

theorem c2_witness :
    (lit "ab").length < bytesToRead c2req c2req.length ∧
    (handle_client ⟨true, true⟩ ⟨[], 1⟩ (.ok (.valid c2req)) (lit "ab")
        = handle_client ⟨true, true⟩ ⟨[], 1⟩ (.ok (.valid c2req)) [] ∧
      ∃ p, (handle_client ⟨true, true⟩ ⟨[], 1⟩ (.ok (.valid c2req)) (lit "ab")).1
        = HCResult.response p) :=
  ⟨by decide,
    c2_short_read_still_responds ⟨true, true⟩ ⟨[], 1⟩ c2req (lit "ab") (by decide)⟩

/-- C9: the claim says an undecodable initial chunk is treated as an empty
string and routed to 404 Not Found instead of crashing. The code indeed
defaults the text to "" (line 65), but line 71 then calls
`split_at(header_end_index)` with the untouched byte count `size`, which is
out of bounds for the empty string and panics: every invalid chunk of at
least one byte crashes the connection handler instead of answering 404. -/
theorem c9_invalid_chunk_panics (env : DBEnv) (st : DBState) (n : Nat)
    (tail : Str) :
    (handle_client env st (.ok (.invalid (n + 1))) tail).1
      = HCResult.panicked := by
  have hfe : findSubstr ([] : Str) crlf2 = none := by decide
  have hg : ¬ (headerEnd (chunkText (Chunk.invalid (n + 1)))
      (chunkSize (Chunk.invalid (n + 1)))
      ≤ (chunkText (Chunk.invalid (n + 1))).length) := by
    simp [chunkText, chunkSize, headerEnd, hfe]
  simp only [handle_client]
  rw [if_neg hg]

/-- The Create handler only ever emits the four literal status lines. -/
theorem post_good_status (env : DBEnv) (st : DBState) (req : Str) :
    goodStatus ((handle_post_request env st req).1.1) := by
  unfold handle_post_request
  repeat' split
  all_goals first
    | exact Or.inl rfl
    | exact Or.inr (Or.inl rfl)
    | exact Or.inr (Or.inr (Or.inl rfl))
    | exact Or.inr (Or.inr (Or.inr rfl))

theorem get_good_status (env : DBEnv) (st : DBState) (req : Str) :
    goodStatus ((handle_get_request env st req).1.1) := by
  unfold handle_get_request
  repeat' split
  all_goals first
    | exact Or.inl rfl
    | exact Or.inr (Or.inl rfl)
    | exact Or.inr (Or.inr (Or.inl rfl))
    | exact Or.inr (Or.inr (Or.inr rfl))

theorem get_all_good_status (env : DBEnv) (st : DBState) (req : Str) :
    goodStatus ((handle_get_all_request env st req).1.1) := by
  unfold handle_get_all_request
  repeat' split
  all_goals first
    | exact Or.inl rfl
    | exact Or.inr (Or.inl rfl)
    | exact Or.inr (Or.inr (Or.inl rfl))
    | exact Or.inr (Or.inr (Or.inr rfl))

theorem put_tail_good (pr : DBState × Nat) :
    goodStatus ((if pr.2 = 0 then ((NOT_FOUND, lit "User not found for update"), pr.1)
      else ((OK_RESPONSE, lit "User updated"), pr.1)).1.1) := by
  split
  · exact Or.inr (Or.inr (Or.inl rfl))
  · exact Or.inl rfl

theorem put_good_status (env : DBEnv) (st : DBState) (req : Str) :
    goodStatus ((handle_put_request env st req).1.1) := by
  unfold handle_put_request
  repeat' split
  all_goals first
    | exact Or.inl rfl
    | exact Or.inr (Or.inl rfl)
    | exact Or.inr (Or.inr (Or.inl rfl))
    | exact Or.inr (Or.inr (Or.inr rfl))
    | exact put_tail_good _

theorem delete_tail_good (pr : DBState × Nat) :
    goodStatus ((if pr.2 = 0 then ((NOT_FOUND, lit "User not found"), pr.1)
      else ((OK_RESPONSE, lit "User deleted"), pr.1)).1.1) := by
  split
  · exact Or.inr (Or.inr (Or.inl rfl))
  · exact Or.inl rfl

theorem delete_good_status (env : DBEnv) (st : DBState) (req : Str) :
    goodStatus ((handle_delete_request env st req).1.1) := by
  unfold handle_delete_request
  repeat' split
  all_goals first
    | exact Or.inl rfl
    | exact Or.inr (Or.inl rfl)
    | exact Or.inr (Or.inr (Or.inl rfl))
    | exact Or.inr (Or.inr (Or.inr rfl))
    | exact delete_tail_good _

theorem dispatch_good_status (env : DBEnv) (st : DBState) (first full : Str) :
    goodStatus ((dispatch env st first full).1.1) := by
  unfold dispatch
  split
  · exact post_good_status env st full
  · exact get_good_status env st full
  · exact get_all_good_status env st full
  · exact put_good_status env st full
  · exact delete_good_status env st full
  · simp [goodStatus]

/-- C7: whatever connection input arrives, if the driver writes a response at
all, its status line is one of the four literals 200 OK, 400 BAD REQUEST,
404 NOT FOUND, 500 INTERNAL ERROR. -/
theorem c7_status_line_cases (env : DBEnv) (st : DBState) (r : InitialRead)
    (tail : Str) (p : Str × Str)
    (h : (handle_client env st r tail).1 = HCResult.response p) :
    goodStatus p.1 := by
  cases r with
  | failed => simp [handle_client] at h
  | ok chunk =>
    simp only [handle_client] at h
    split at h
    · simp only [HCResult.response.injEq] at h
      rw [← h]
      exact dispatch_good_status env st _ _
    · simp at h

def c7req : Str := lit "GET /users HTTP/1.1"

theorem c7_witness :
    (handle_client ⟨true, true⟩ ⟨[], 1⟩ (.ok (.valid c7req)) []).1
      = HCResult.response (OK_RESPONSE, lit "[]") ∧
    goodStatus (OK_RESPONSE, lit "[]").1 :=
  ⟨by decide,
    c7_status_line_cases ⟨true, true⟩ ⟨[], 1⟩ (.ok (.valid c7req)) []
      (OK_RESPONSE, lit "[]") (by decide)⟩

/-- C10 (counterexample): occurrences of "\r\n\r\n" may overlap, and then the
last piece of Rust's non-overlapping split differs from the substring after
the last occurrence. In `"POST /users\r\n\r\n\r\n"` the separator occurs at
indices 11 and 13; the text after the last occurrence is empty, but the

decoder receives `"\r\n"`, the remainder after the single greedy match at 11. -/
theorem c10_counterexample :
    route (firstLineOf (lit "POST /users\r\n\r\n\r\n")) = Handler.create ∧
    rawBody (lit "POST /users\r\n\r\n\r\n") = lit "\r\n" ∧
    afterLastOccurrence (lit "POST /users\r\n\r\n\r\n") = lit "" ∧
    rawBody (lit "POST /users\r\n\r\n\r\n")
      ≠ afterLastOccurrence (lit "POST /users\r\n\r\n\r\n") := by
  refine ⟨by decide, by decide, by decide, by decide⟩

/-- C10 (amended): the decoder receives the final piece of the left-to-right
non-overlapping split of the request on "\r\n\r\n" — always a suffix of the
request containing no further occurrence of the separator (so a body holding
"\r\n\r\n" is truncated to its final segment); a request with no "\r\n\r\n"
at all has its entire text, request line and headers included, handed to the
decoder, which fails on it and yields 400. This coincides with "the substring
after the last occurrence" except when occurrences overlap. -/
theorem c10_body_extraction (env : DBEnv) (st : DBState) (req : Str) :
    findSubstr (rawBody req) crlf2 = none ∧
    (∃ p : Str, req = p ++ rawBody req) ∧
    (findSubstr req crlf2 = none → rawBody req = req) ∧
    (findSubstr req crlf2 = none →
      startsWithL req (lit "POST /users") = true →
      handle_post_request env st req = ((BAD_REQUEST, lit "Invalid user data"), st)) := by
  refine ⟨?_, ?_, ?_, ?_⟩
  · exact splitSubF_last_noSep req.length req (Nat.le_refl _)
  · exact splitSubF_last_suffix req.length req
  · exact rawBody_of_noSep req
  · intro hno hpost
    have hbody : rawBody req = req := rawBody_of_noSep req hno
    have hdec : get_user_request_body req = none := by
      unfold get_user_request_body
      rw [hbody]
      obtain ⟨t, rfl⟩ := startsWithL_iff.mp hpost
      cases hp : lit "\x7b\"name\":\"" with
      | nil => exact absurd hp (by decide)
      | cons p ps =>
        have h1 : (lit "POST /users" ++ t).head? = (lit "POST /users").head? :=
          head?_append_left t (by decide)
        have h2 : (lit "POST /users").head? ≠ some p := by
          rw [show some p = (lit "\x7b\"name\":\"").head? from by rw [hp]; rfl]
          decide
        unfold decodeUser
        rw [hp, dropLit_none_of_head p ps _ (by rw [h1]; exact h2)]
        rfl
    unfold handle_post_request
    rw [hdec]

def c10req : Str := lit "POST /users HTTP/1.1"

theorem c10_witness :
    findSubstr c10req crlf2 = none ∧
    startsWithL c10req (lit "POST /users") = true ∧
    handle_post_request ⟨true, true⟩ ⟨[], 1⟩ c10req
      = ((BAD_REQUEST, lit "Invalid user data"), ⟨[], 1⟩) :=
  ⟨by decide, by decide,
    (c10_body_extraction ⟨true, true⟩ ⟨[], 1⟩ c10req).2.2.2 (by decide) (by decide)⟩
